import Mathlib

/-!
Shallow embedding of the gacha-map detour-discovery application
(`src/types.ts`, `src/services/overpassService.ts`, `src/App.tsx`)
and verification of its specification claims.

JavaScript numbers are modelled as real numbers `ℝ`; optional string
fields as `Option String` with JS truthiness (absent or empty string is
falsy); the external API and `Math.random` are modelled as explicit
parameters (a fetch function returning `Except`, and a choice sequence
for the Fisher-Yates shuffle).
-/

namespace Gacha

/-- The fixed category enumeration of `Spot['category']` in `types.ts`. -/
inductive Category where
  | restaurant
  | tourist_attraction
  | gas_station
  | shop
  | cafe
  | all
deriving DecidableEq, Repr

/-- A map point (`Point` in `types.ts`); the optional display `name` is
presentation-only and omitted. -/
structure Point where
  lat : ℝ
  lng : ℝ

/-- The tag map of an Overpass element, restricted to the keys the code
reads (`OverpassElement.tags` in `types.ts`). A missing key is `none`. -/
structure Tags where
  name : Option String := none
  amenity : Option String := none
  tourism : Option String := none
  shop : Option String := none
  cuisine : Option String := none
  phone : Option String := none
  website : Option String := none
  opening_hours : Option String := none
  brand : Option String := none
  operator : Option String := none
  addr_full : Option String := none
  addr_housenumber : Option String := none
  addr_street : Option String := none
  addr_city : Option String := none

/-- An element of the Overpass API response (`OverpassElement` in
`types.ts`). -/
structure OverpassElement where
  type : String
  id : ℕ
  lat : ℝ
  lon : ℝ
  tags : Tags

/-- A candidate spot (`Spot` in `types.ts`). `description` and `address`
are always set by `convertToSpots`, so they are plain strings here. -/
structure Spot where
  id : String
  name : String
  lat : ℝ
  lng : ℝ
  type : String
  category : Category
  description : String := ""
  address : String := ""
  phone : Option String := none
  website : Option String := none
  openingHours : Option String := none
  cuisine : Option String := none
  isChain : Bool := false
  chainName : Option String := none
  isMajorChain : Bool := false
  stars : Option ℕ := none
  distanceFromRoute : Option ℝ := none

/-- JS truthiness of an optional string: present and non-empty. -/
def jsTruthy (o : Option String) : Bool :=
  match o with
  | none => false
  | some s => !s.isEmpty

/-- The string value of an optional tag (empty when absent), used where
the code reads a tag it has already checked for truthiness. -/
def jsGet (o : Option String) : String := o.getD ""

/-- JS `a || b` on an optional string with a string default: the value
when truthy, else the default. -/
def jsOrStr (o : Option String) (d : String) : String :=
  match o with
  | none => d
  | some s => if s.isEmpty then d else s

/-- JS `x || 0` on an optional number (`spot.distanceFromRoute || 0`). -/
def jsOrZero (o : Option ℝ) : ℝ := o.getD 0

/-- `determineCategory` from `overpassService.ts`: fixed tag-priority
rule mapping an element's tags to a category. -/
def determineCategory (tags : Tags) : Category :=
  if tags.amenity = some "restaurant" ∨ tags.amenity = some "fast_food" then .restaurant
  else if tags.amenity = some "cafe" then .cafe
  else if tags.tourism = some "attraction" ∨ tags.tourism = some "museum" then .tourist_attraction
  else if tags.amenity = some "fuel" then .gas_station
  else if jsTruthy tags.shop then .shop
  else .restaurant

/-- `generateDescription` from `overpassService.ts`: concatenation of the
present descriptive tags, joined by " | ". -/
def generateDescription (tags : Tags) : String :=
  String.intercalate " | "
    ((if jsTruthy tags.amenity then [jsGet tags.amenity] else []) ++
     (if jsTruthy tags.tourism then [jsGet tags.tourism] else []) ++
     (if jsTruthy tags.cuisine then ["料理: " ++ jsGet tags.cuisine] else []) ++
     (if jsTruthy tags.shop then ["店舗: " ++ jsGet tags.shop] else []))

/-- `extractAddress` from `overpassService.ts`. -/
def extractAddress (tags : Tags) : String :=
  if jsTruthy tags.addr_full then jsGet tags.addr_full
  else
    String.intercalate " "
      ((if jsTruthy tags.addr_housenumber then [jsGet tags.addr_housenumber] else []) ++
       (if jsTruthy tags.addr_street then [jsGet tags.addr_street] else []) ++
       (if jsTruthy tags.addr_city then [jsGet tags.addr_city] else []))

/-- `s.includes(pat)` on the character lists of JS strings. -/
def containsSubAux (pat : List Char) : List Char → Bool
  | [] => pat.isEmpty
  | c :: cs => List.isPrefixOf pat (c :: cs) || containsSubAux pat cs

/-- JS `String.prototype.includes`: `pat` occurs as a contiguous
substring of `s`. -/
def containsSub (s pat : String) : Bool := containsSubAux pat.toList s.toList

/-- The hard-coded chain-name substring list (`commonChains`). -/
def commonChains : List String :=
  ["マクドナルド", "McDonald", "スターバックス", "Starbucks",
   "セブン-イレブン", "7-Eleven", "ファミリーマート", "FamilyMart",
   "ローソン", "Lawson", "すき家", "松屋", "ガスト", "Gusto",
   "サイゼリヤ", "ドトール", "Doutor", "タリーズ", "Tully\x27s",
   "ケンタッキー", "KFC", "バーガーキング", "Burger King",
   "モスバーガー", "MOS BURGER", "ココス", "COCO\x27S",
   "ジョナサン", "デニーズ", "Denny\x27s", "びっくりドンキー",
   "はなまるうどん", "丸亀製麺", "やよい軒", "大戸屋"]

/-- The hard-coded major-chain list (`majorChains`). -/
def majorChains : List String :=
  ["マクドナルド", "McDonald", "松屋", "すき家", "ガスト", "Gusto",
   "サイゼリヤ", "ケンタッキー", "KFC", "バーガーキング", "Burger King",
   "セブン-イレブン", "7-Eleven", "ファミリーマート", "FamilyMart",
   "ローソン", "Lawson", "ココス", "COCO\x27S", "ジョナサン",
   "デニーズ", "Denny\x27s", "びっくりドンキー", "はなまるうどん", "丸亀製麺"]

/-- `isMajorChain` (the static helper) from `overpassService.ts`: some
major-chain name occurs in the given chain name. -/
def isMajorChainName (chainName : String) : Bool :=
  majorChains.any (fun major => containsSub chainName major)

/-- Result of `detectChain`. -/
structure ChainInfo where
  isChain : Bool
  chainName : Option String := none
  isMajorChain : Bool := false

/-- `detectChain` from `overpassService.ts`: brand/operator tags first,
then the first matching hard-coded substring. -/
def detectChain (tags : Tags) : ChainInfo :=
  if jsTruthy tags.brand then
    ⟨true, tags.brand, isMajorChainName (jsGet tags.brand)⟩
  else if jsTruthy tags.operator then
    ⟨true, tags.operator, isMajorChainName (jsGet tags.operator)⟩
  else
    match commonChains.find? (fun chain => containsSub (jsGet tags.name) chain) with
    | some chain => ⟨true, some chain, isMajorChainName chain⟩
    | none => ⟨false, none, false⟩

/-- `convertToSpots` from `overpassService.ts`: keep named elements and
map each to a `Spot`. -/
def convertToSpots (elements : List OverpassElement) : List Spot :=
  (elements.filter (fun element => jsTruthy element.tags.name)).map (fun element =>
    let chainInfo := detectChain element.tags
    { id := element.type ++ "_" ++ toString element.id
      name := jsOrStr element.tags.name "Unknown"
      lat := element.lat
      lng := element.lon
      type := jsOrStr element.tags.amenity
        (jsOrStr element.tags.tourism (jsOrStr element.tags.shop "other"))
      category := determineCategory element.tags
      description := generateDescription element.tags
      address := extractAddress element.tags
      phone := element.tags.phone
      website := element.tags.website
      openingHours := element.tags.opening_hours
      cuisine := element.tags.cuisine
      isChain := chainInfo.isChain
      chainName := chainInfo.chainName
      isMajorChain := chainInfo.isMajorChain })

section RealModel

attribute [local instance] Classical.propDecidable

/-- JS `Math.atan2` on real arguments (the branch cases of the IEEE
definition, with `atan2 0 0 = 0`). -/
noncomputable def atan2 (y x : ℝ) : ℝ :=
  if 0 < x then Real.arctan (y / x)
  else if x < 0 then
    (if 0 ≤ y then Real.arctan (y / x) + Real.pi else Real.arctan (y / x) - Real.pi)
  else
    (if 0 < y then Real.pi / 2 else if y < 0 then -(Real.pi / 2) else 0)

/-- `calculateDistance` from `overpassService.ts`: Haversine distance in
kilometers with mean Earth radius 6371 km. -/
noncomputable def calculateDistance (point1 point2 : Point) : ℝ :=
  let R : ℝ := 6371
  let dLat := (point2.lat - point1.lat) * Real.pi / 180
  let dLng := (point2.lng - point1.lng) * Real.pi / 180
  let a := Real.sin (dLat / 2) * Real.sin (dLat / 2) +
    Real.cos (point1.lat * Real.pi / 180) * Real.cos (point2.lat * Real.pi / 180) *
    Real.sin (dLng / 2) * Real.sin (dLng / 2)
  let c := 2 * atan2 (Real.sqrt a) (Real.sqrt (1 - a))
  R * c

/-- The distance-to-radius step function inside `calculateSearchRadius`
(`overpassService.ts`), taken as a function of the already-computed
start-end distance in km. -/
noncomputable def radiusOfDistance (distance : ℝ) : ℕ :=
  if distance ≤ 1 then 1500
  else if distance ≤ 3 then 2000
  else if distance ≤ 10 then 3000
  else if distance ≤ 20 then 5000
  else 7000

/-- `calculateSearchRadius` from `overpassService.ts`. -/
noncomputable def calculateSearchRadius (startPoint endPoint : Point) : ℕ :=
  radiusOfDistance (calculateDistance startPoint endPoint)

/-- `calculateNearDestinationPoints` from `overpassService.ts`: `count`
points linearly interpolated at parameters `(i+1)/(count+1)` of the
start-to-end vector in raw lat/lng space. -/
noncomputable def calculateNearDestinationPoints (start endP : Point) (count : ℕ) : List Point :=
  (List.range count).map (fun (i : ℕ) =>
    let ratio : ℝ := ((i : ℝ) + 1) / ((count : ℝ) + 1)
    { lat := start.lat + (endP.lat - start.lat) * ratio
      lng := start.lng + (endP.lng - start.lng) * ratio })

/-- `isBackward` from `overpassService.ts`: lenient dot-product test for
a spot lying behind the start or beyond the end of the route. -/
noncomputable def isBackward (spot startPoint endPoint : Point) : Prop :=
  let routeVectorLat := endPoint.lat - startPoint.lat
  let routeVectorLng := endPoint.lng - startPoint.lng
  let spotVectorLat := spot.lat - startPoint.lat
  let spotVectorLng := spot.lng - startPoint.lng
  let dotProduct := routeVectorLat * spotVectorLat + routeVectorLng * spotVectorLng
  let routeLengthSq := routeVectorLat * routeVectorLat + routeVectorLng * routeVectorLng
  if dotProduct < 0 then
    let spotLengthSq := spotVectorLat * spotVectorLat + spotVectorLng * spotVectorLng
    spotLengthSq > routeLengthSq * 0.04
  else
    let endToSpotVectorLat := spot.lat - endPoint.lat
    let endToSpotVectorLng := spot.lng - endPoint.lng
    let endBackwardDot := routeVectorLat * endToSpotVectorLat + routeVectorLng * endToSpotVectorLng
    if endBackwardDot > 0 then
      let endSpotLengthSq := endToSpotVectorLat * endToSpotVectorLat +
        endToSpotVectorLng * endToSpotVectorLng
      endSpotLengthSq > routeLengthSq * 0.04
    else False

/-- The score accumulation of `calculateSpotRating`
(`overpassService.ts`): start at 100 and apply each penalty in source
order (the debug-string bookkeeping is presentation-only and omitted). -/
noncomputable def spotRatingScore (spot : Spot) (startPoint endPoint : Point) : ℝ :=
  let score1 : ℝ := 100
  let score2 := if isBackward ⟨spot.lat, spot.lng⟩ startPoint endPoint then score1 - 40 else score1
  let distanceFromRoute := jsOrZero spot.distanceFromRoute
  let score3 :=
    if distanceFromRoute > 2.5 then score2 - 30
    else if distanceFromRoute > 1.8 then score2 - 20
    else score2
  let score4 := if spot.isChain then score3 - 20 else score3
  let distanceFromStart := calculateDistance ⟨spot.lat, spot.lng⟩ startPoint
  let score5 := if distanceFromStart ≤ 0.3 then score4 - 25 else score4
  let score6 := if !jsTruthy spot.openingHours then score5 - 10 else score5
  let score7 := if !jsTruthy spot.phone then score6 - 10 else score6
  if !jsTruthy spot.website then score7 - 10 else score7

/-- `calculateSpotRating` from `overpassService.ts`, returning the star
count: major chains are fixed at 1 star, otherwise the score is mapped
through the 70/30 thresholds. -/
noncomputable def calculateSpotRating (spot : Spot) (startPoint endPoint : Point) : ℕ :=
  if spot.isMajorChain then 1
  else
    if spotRatingScore spot startPoint endPoint ≥ 70 then 3
    else if spotRatingScore spot startPoint endPoint ≥ 30 then 2
    else 1

/-- The spec's description of the scoring heuristic as a sum of
independent penalties (section 4.4 of the spec), for comparison with
the code's sequential accumulation. -/
noncomputable def specPenaltyTotal (spot : Spot) (startPoint endPoint : Point) : ℝ :=
  (if isBackward ⟨spot.lat, spot.lng⟩ startPoint endPoint then 40 else 0) +
  (if jsOrZero spot.distanceFromRoute > 2.5 then 30
   else if jsOrZero spot.distanceFromRoute > 1.8 then 20 else 0) +
  (if spot.isChain then 20 else 0) +
  (if calculateDistance ⟨spot.lat, spot.lng⟩ startPoint ≤ 0.3 then 25 else 0) +
  (if !jsTruthy spot.openingHours then 10 else 0) +
  (if !jsTruthy spot.phone then 10 else 0) +
  (if !jsTruthy spot.website then 10 else 0)

/-- The spec's star thresholds applied to `100 - specPenaltyTotal`. -/
noncomputable def specStars (spot : Spot) (startPoint endPoint : Point) : ℕ :=
  if 100 - specPenaltyTotal spot startPoint endPoint ≥ 70 then 3
  else if 100 - specPenaltyTotal spot startPoint endPoint ≥ 30 then 2
  else 1

end RealModel

/-- JS `Array.prototype.findIndex`: index of the first match, `-1`
when there is none. -/
def jsFindIndex (p : α → Bool) (l : List α) : ℤ :=
  match l.findIdx? p with
  | some i => (i : ℤ)
  | none => -1

/-- The identifier deduplication of `handleGachaRoll` in `App.tsx`:
`allSpots.filter((spot, index, self) => index === self.findIndex(s => s.id === spot.id))`. -/
def dedupSpots (spots : List Spot) : List Spot :=
  ((spots.enum.filter (fun p => jsFindIndex (fun s => s.id == p.2.id) spots == (p.1 : ℤ))).map
    Prod.snd)

/-- One Fisher-Yates swap step: exchange positions `i` and `j`
(identity when an index is out of range, which the call sites never
produce). -/
def swapL (l : List α) (i j : ℕ) : List α :=
  match l[i]?, l[j]? with
  | some a, some b => (l.set i b).set j a
  | _, _ => l

/-- The Fisher-Yates downward loop
(`for (let i = n-1; i > 0; i--) swap(i, floor(random*(i+1)))`),
with the random draw at index `i` modelled by `choice i`. -/
def fyAux (choice : ℕ → ℕ) : List α → ℕ → List α
  | l, 0 => l
  | l, i + 1 => fyAux choice (swapL l (i + 1) (choice (i + 1))) i

/-- The full Fisher-Yates shuffle of `selectRandomMidPoints` /
`selectRandomSpotsWithoutRating`. -/
def fyShuffle (choice : ℕ → ℕ) (l : List α) : List α :=
  fyAux choice l (l.length - 1)

/-- `selectRandomMidPoints` from `overpassService.ts`. -/
def selectRandomMidPoints (choice : ℕ → ℕ) (midPoints : List Point) (count : ℕ) : List Point :=
  if midPoints.length ≤ count then midPoints
  else (fyShuffle choice midPoints).take count

/-- `selectRandomSpotsWithoutRating` from `overpassService.ts`. -/
def selectRandomSpotsWithoutRating (choice : ℕ → ℕ) (spots : List Spot) (count : ℕ) : List Spot :=
  if spots.length ≤ count then spots
  else (fyShuffle choice spots).take count

/-- The per-roll aggregation loop of `handleGachaRoll` in `App.tsx`:
for each selected mid point, query the API and append the results,
skipping any point whose query fails. The query (`searchSpots`) is
modelled by an explicit `fetch` function whose `Except.error` case
covers both transport failures and non-success responses. -/
def aggregateSpots (fetch : Point → Except String (List Spot)) (pts : List Point) : List Spot :=
  pts.foldl (fun acc p =>
    match fetch p with
    | .ok spots => acc ++ spots
    | .error _ => acc) []

/-- The UI state relevant to point selection (`App.tsx` `useState`
hooks). -/
structure AppState where
  startPoint : Option Point
  endPoint : Option Point
  gachaSpots : List Spot
  allGachaHistory : List Spot

/-- `handleMapClick` from `App.tsx`: first click sets the start point,
second sets the end point, afterwards clicks change nothing. -/
def handleMapClick (st : AppState) (lat lng : ℝ) : AppState :=
  match st.startPoint with
  | none => { st with startPoint := some ⟨lat, lng⟩ }
  | some _ =>
    match st.endPoint with
    | none => { st with endPoint := some ⟨lat, lng⟩ }
    | some _ => st

/-- `handleReset` from `App.tsx`: clear both points and all results. -/
def handleReset (_st : AppState) : AppState :=
  { startPoint := none, endPoint := none, gachaSpots := [], allGachaHistory := [] }

/-- A concrete spot with complete metadata used to witness C1. -/
def wSpot : Spot :=
  { id := "node_2", name := "喫茶ポラリス", lat := 0, lng := 0, type := "cafe",
    category := .cafe, phone := some "03-0000-0000",
    website := some "https://example.com",
    openingHours := some "Mo-Su 09:00-18:00", distanceFromRoute := some 0 }

/-- Three concrete spots, the first and third sharing an identifier,
used to witness C5. -/
def wDupList : List Spot :=
  [{ id := "node_1", name := "A", lat := 0, lng := 0, type := "cafe", category := .cafe },
   { id := "node_2", name := "B", lat := 1, lng := 1, type := "cafe", category := .cafe },
   { id := "node_1", name := "A2", lat := 2, lng := 2, type := "cafe", category := .cafe }]

/-- The disjunction of the recognized category tag rules of
`determineCategory`. -/
def matchesCategoryRule (tags : Tags) : Prop :=
  tags.amenity = some "restaurant" ∨ tags.amenity = some "fast_food" ∨
  tags.amenity = some "cafe" ∨
  tags.tourism = some "attraction" ∨ tags.tourism = some "museum" ∨
  tags.amenity = some "fuel" ∨ jsTruthy tags.shop = true

/-- A concrete named API element used to witness C10. -/
def wElem : OverpassElement :=
  { type := "node", id := 42, lat := 35.6, lon := 139.7,
    tags := { name := some "ラーメン香月" } }

/-- Four concrete spots used to witness C6. -/
def wC6List : List Spot :=
  [{ id := "node_1", name := "A", lat := 0, lng := 0, type := "cafe", category := .cafe },
   { id := "node_2", name := "B", lat := 1, lng := 1, type := "cafe", category := .cafe },
   { id := "node_3", name := "C", lat := 2, lng := 2, type := "cafe", category := .cafe },
   { id := "node_4", name := "D", lat := 3, lng := 3, type := "cafe", category := .cafe }]

/-! ## Theorems -/

/-- C2: every spot flagged as a major chain is rated exactly 1 star, for
any start and end point and regardless of all other spot attributes. -/
theorem majorChain_always_one_star (spot : Spot) (startPoint endPoint : Point)
    (h : spot.isMajorChain = true) :
    calculateSpotRating spot startPoint endPoint = 1 := by
  simp [calculateSpotRating, h]

/-- Witness for C2: a concrete major-chain spot receives 1 star. -/
theorem majorChain_always_one_star_witness :
    calculateSpotRating
      { id := "node_1", name := "マクドナルド 渋谷店", lat := 35.658, lng := 139.7016,
        type := "fast_food", category := .restaurant, isChain := true,
        chainName := some "マクドナルド", isMajorChain := true }
      ⟨35.6896, 139.6917⟩ ⟨35.658, 139.7016⟩ = 1 :=
  majorChain_always_one_star _ _ _ rfl

/-- C3: the search radius is the step function of the Haversine
start-end distance given in the spec, with the five sample values
1500/2000/3000/5000/7000 m at distances 0.5/2/5/15/25 km. -/
theorem searchRadius_step_function :
    (∀ startPoint endPoint : Point,
      calculateSearchRadius startPoint endPoint =
        radiusOfDistance (calculateDistance startPoint endPoint)) ∧
    (∀ d : ℝ,
      (d ≤ 1 → radiusOfDistance d = 1500) ∧
      (1 < d → d ≤ 3 → radiusOfDistance d = 2000) ∧
      (3 < d → d ≤ 10 → radiusOfDistance d = 3000) ∧
      (10 < d → d ≤ 20 → radiusOfDistance d = 5000) ∧
      (20 < d → radiusOfDistance d = 7000)) ∧
    radiusOfDistance 0.5 = 1500 ∧ radiusOfDistance 2 = 2000 ∧
    radiusOfDistance 5 = 3000 ∧ radiusOfDistance 15 = 5000 ∧
    radiusOfDistance 25 = 7000 := by
  refine ⟨fun _ _ => rfl, fun d => ⟨?_, ?_, ?_, ?_, ?_⟩, ?_, ?_, ?_, ?_, ?_⟩
  all_goals intros
  all_goals simp only [radiusOfDistance]
  all_goals split_ifs <;> first | rfl | linarith

/-- Witness for C3: the step function applied at distance 2 km. -/
theorem searchRadius_step_function_witness : radiusOfDistance 2 = 2000 :=
  (searchRadius_step_function.2.1 2).2.1 (by norm_num) (by norm_num)

/-- C4: the 5 interpolated sample points lie exactly on the straight
start-to-end segment in raw lat/lng space, at parameters
1/6, …, 5/6. -/
theorem nearDestinationPoints_on_segment (start endP : Point) :
    (calculateNearDestinationPoints start endP 5).length = 5 ∧
    ∀ i (h : i < (calculateNearDestinationPoints start endP 5).length),
      ((calculateNearDestinationPoints start endP 5).get ⟨i, h⟩).lat =
        start.lat + (endP.lat - start.lat) * (((i : ℝ) + 1) / 6) ∧
      ((calculateNearDestinationPoints start endP 5).get ⟨i, h⟩).lng =
        start.lng + (endP.lng - start.lng) * (((i : ℝ) + 1) / 6) := by
  constructor
  · simp only [calculateNearDestinationPoints, List.length_map, List.length_range]
  · intro i h
    refine ⟨?_, ?_⟩ <;>
      simp only [calculateNearDestinationPoints, List.get_eq_getElem, List.getElem_map,
        List.getElem_range] <;>
      norm_num

/-- Witness for C4: the first sample point between (0,0) and (6,6) is
at parameter 1/6. -/
theorem nearDestinationPoints_on_segment_witness :
    ((calculateNearDestinationPoints ⟨0, 0⟩ ⟨6, 6⟩ 5).get
        ⟨0, by simp [calculateNearDestinationPoints]⟩).lat =
      (0 : ℝ) + (6 - 0) * ((0 + 1) / 6) := by
  simpa using ((nearDestinationPoints_on_segment ⟨0, 0⟩ ⟨6, 6⟩).2 0
    (by simp [calculateNearDestinationPoints])).1

/-- C7: in the map-click state machine, after a reset both points are
cleared; from that state the first click sets the start point, the
second click sets the end point, and any click while both points are
set is a no-op. -/
theorem mapClick_state_machine :
    ∀ (st : AppState) (lat1 lng1 lat2 lng2 : ℝ),
      (handleReset st).startPoint = none ∧ (handleReset st).endPoint = none ∧
      ((handleMapClick (handleReset st) lat1 lng1).startPoint = some ⟨lat1, lng1⟩ ∧
        (handleMapClick (handleReset st) lat1 lng1).endPoint = none) ∧
      ((handleMapClick (handleMapClick (handleReset st) lat1 lng1) lat2 lng2).startPoint =
          some ⟨lat1, lng1⟩ ∧
        (handleMapClick (handleMapClick (handleReset st) lat1 lng1) lat2 lng2).endPoint =
          some ⟨lat2, lng2⟩) ∧
      (∀ (s : AppState) (lat lng : ℝ), s.startPoint ≠ none → s.endPoint ≠ none →
        handleMapClick s lat lng = s) := by
  intro st lat1 lng1 lat2 lng2
  refine ⟨rfl, rfl, ⟨rfl, rfl⟩, ⟨rfl, rfl⟩, ?_⟩
  intro s lat lng hs he
  obtain ⟨a, ha⟩ := Option.ne_none_iff_exists.mp hs
  obtain ⟨b, hb⟩ := Option.ne_none_iff_exists.mp he
  simp [handleMapClick, ← ha, ← hb]

/-- Witness for C7: a click on a state with both points set is a
no-op. -/
theorem mapClick_state_machine_witness :
    handleMapClick ⟨some ⟨0, 0⟩, some ⟨1, 1⟩, [], []⟩ 5 5 = ⟨some ⟨0, 0⟩, some ⟨1, 1⟩, [], []⟩ :=
  (mapClick_state_machine ⟨none, none, [], []⟩ 0 0 0 0).2.2.2.2
    ⟨some ⟨0, 0⟩, some ⟨1, 1⟩, [], []⟩ 5 5 (by simp) (by simp)

/-- C9: the per-roll aggregation never fails as a whole; each sample
point whose query fails contributes nothing, and the results of all
successful points are concatenated in order. -/
theorem aggregation_isolates_failures (fetch : Point → Except String (List Spot))
    (pts : List Point) :
    aggregateSpots fetch pts =
      (pts.map (fun p =>
        match fetch p with
        | .ok spots => spots
        | .error _ => [])).flatten := by
  suffices h : ∀ (l : List Point) (acc : List Spot),
      l.foldl (fun acc p =>
        match fetch p with
        | .ok spots => acc ++ spots
        | .error _ => acc) acc =
      acc ++ (l.map (fun p =>
        match fetch p with
        | .ok spots => spots
        | .error _ => [])).flatten by
    simpa [aggregateSpots] using h pts []
  intro l
  induction l with
  | nil => simp
  | cons p ps ih =>
    intro acc
    cases hf : fetch p <;> simp [hf, ih, List.append_assoc]

/-- Rewriting step: applying a conditional penalty to a score is
subtracting a conditional amount. -/
theorem iteSub (c : Prop) [Decidable c] (s x : ℝ) :
    (if c then s - x else s) = s - (if c then x else 0) := by
  split_ifs <;> ring

/-- Rewriting step: the same with an already-conditional else branch. -/
theorem iteSub3 (c : Prop) [Decidable c] (s x t : ℝ) :
    (if c then s - x else s - t) = s - (if c then x else t) := by
  split_ifs <;> ring

/-- The code's sequential score accumulation equals 100 minus the
spec's sum of independent penalties. -/
theorem spotRatingScore_eq_spec (spot : Spot) (startPoint endPoint : Point) :
    spotRatingScore spot startPoint endPoint =
      100 - specPenaltyTotal spot startPoint endPoint := by
  simp only [spotRatingScore, specPenaltyTotal, iteSub, iteSub3]
  ring

/-- C1: for every spot not flagged as a major chain, the computed
rating is exactly the spec's heuristic: 100 minus the independent
penalties (backward −40; distance-from-route >2.5 km −30 else >1.8 km
−20; chain −20; within 0.3 km of start −25; −10 per missing
hours/phone/website), mapped through the ≥70 → 3 / ≥30 → 2 / else 1
thresholds; and with no penalty applicable the score is 100 and the
rating 3 stars. -/
theorem rating_follows_heuristic (spot : Spot) (startPoint endPoint : Point)
    (h : spot.isMajorChain = false) :
    calculateSpotRating spot startPoint endPoint = specStars spot startPoint endPoint ∧
    (¬ isBackward ⟨spot.lat, spot.lng⟩ startPoint endPoint →
     jsOrZero spot.distanceFromRoute ≤ 1.8 →
     spot.isChain = false →
     ¬ calculateDistance ⟨spot.lat, spot.lng⟩ startPoint ≤ 0.3 →
     jsTruthy spot.openingHours = true →
     jsTruthy spot.phone = true →
     jsTruthy spot.website = true →
     spotRatingScore spot startPoint endPoint = 100 ∧
     calculateSpotRating spot startPoint endPoint = 3) := by
  have hs := spotRatingScore_eq_spec spot startPoint endPoint
  constructor
  · simp only [calculateSpotRating, specStars, h, Bool.false_eq_true, if_false, hs]
  · intro hb hd hc hst ho hp hw
    have h100 : spotRatingScore spot startPoint endPoint = 100 := by
      simp only [spotRatingScore]
      rw [if_neg hb,
        if_neg (not_lt.mpr (le_trans hd (by norm_num : (1.8 : ℝ) ≤ 2.5))),
        if_neg (not_lt.mpr hd),
        if_neg (show ¬(spot.isChain = true) by simp [hc]),
        if_neg hst,
        if_neg (show ¬((!jsTruthy spot.openingHours) = true) by simp [ho]),
        if_neg (show ¬((!jsTruthy spot.phone) = true) by simp [hp]),
        if_neg (show ¬((!jsTruthy spot.website) = true) by simp [hw])]
    refine ⟨h100, ?_⟩
    simp only [calculateSpotRating, h, Bool.false_eq_true, if_false, h100]
    rw [if_pos (by norm_num : (100 : ℝ) ≥ 70)]

/-- The Haversine distance from latitude 0 to latitude 90 on the same
meridian evaluates exactly (a quarter great circle). -/
theorem distance_zero_to_pole :
    calculateDistance ⟨0, 0⟩ ⟨90, 0⟩ = 6371 * (2 * (Real.pi / 4)) := by
  simp only [calculateDistance]
  rw [show ((90 : ℝ) - 0) * Real.pi / 180 / 2 = Real.pi / 4 by ring,
    show ((0 : ℝ) - 0) * Real.pi / 180 / 2 = 0 by ring,
    Real.sin_pi_div_four, Real.sin_zero]
  have hsq : Real.sqrt 2 / 2 * (Real.sqrt 2 / 2) = 1 / 2 := by
    rw [div_mul_div_comm, Real.mul_self_sqrt (by norm_num : (0 : ℝ) ≤ 2)]
    norm_num
  rw [hsq]
  have hhalf : (1 : ℝ) / 2 + Real.cos (0 * Real.pi / 180) * Real.cos (90 * Real.pi / 180) * 0 * 0 =
      1 / 2 := by ring
  rw [hhalf, show (1 : ℝ) - 1 / 2 = 1 / 2 by norm_num]
  have hpos : 0 < Real.sqrt (1 / 2) := Real.sqrt_pos.mpr (by norm_num)
  have h2 : atan2 (Real.sqrt (1 / 2)) (Real.sqrt (1 / 2)) = Real.pi / 4 := by
    simp only [atan2, if_pos hpos]
    rw [div_self (ne_of_gt hpos), Real.arctan_one]
  rw [h2]

/-- Witness for C1: a concrete penalty-free non-chain spot receives 3
stars. -/
theorem rating_follows_heuristic_witness :
    calculateSpotRating wSpot ⟨90, 0⟩ ⟨90, 1⟩ = 3 :=
  ((rating_follows_heuristic wSpot ⟨90, 0⟩ ⟨90, 1⟩ rfl).2
    (by simp only [wSpot, isBackward]; norm_num)
    (by simp only [wSpot, jsOrZero, Option.getD_some]; norm_num)
    rfl
    (by
      intro hle
      rw [show (⟨wSpot.lat, wSpot.lng⟩ : Point) = (⟨0, 0⟩ : Point) from rfl,
        distance_zero_to_pole] at hle
      nlinarith [Real.pi_gt_three])
    rfl rfl rfl).2

/-- C8: the Haversine distance (with mean Earth radius 6371 km) is
symmetric, and the distance from any point to itself is 0. -/
theorem haversine_symm_and_self_zero :
    (∀ A B : Point, calculateDistance A B = calculateDistance B A) ∧
    (∀ A : Point, calculateDistance A A = 0) := by
  constructor
  · intro A B
    simp only [calculateDistance]
    have h1 : (A.lat - B.lat) * Real.pi / 180 / 2 =
        -((B.lat - A.lat) * Real.pi / 180 / 2) := by ring
    have h2 : (A.lng - B.lng) * Real.pi / 180 / 2 =
        -((B.lng - A.lng) * Real.pi / 180 / 2) := by ring
    rw [h1, h2]
    simp only [Real.sin_neg]
    ring_nf
  · intro A
    norm_num [calculateDistance, atan2, Real.arctan_zero]

/-- Moving the element at position `k` to the front while writing `x`
into position `k` is a permutation-preserving exchange. -/
theorem get_cons_set_perm {α : Type} :
    ∀ (xs : List α) (k : ℕ) (x : α) (h : k < xs.length),
      List.Perm (xs.get ⟨k, h⟩ :: xs.set k x) (x :: xs)
  | [], k, x, h => absurd h (by simp)
  | y :: ys, 0, x, _ => List.Perm.swap x y ys
  | y :: ys, k + 1, x, h =>
    ((List.Perm.swap y (ys.get ⟨k, Nat.lt_of_succ_lt_succ h⟩) (ys.set k x)).trans
      ((get_cons_set_perm ys k x (Nat.lt_of_succ_lt_succ h)).cons y)).trans
      (List.Perm.swap x y ys)

/-- Exchanging the entries at two positions permutes the list. -/
theorem set_set_perm {α : Type} :
    ∀ (l : List α) (i j : ℕ) (hi : i < l.length) (hj : j < l.length),
      List.Perm ((l.set i (l.get ⟨j, hj⟩)).set j (l.get ⟨i, hi⟩)) l
  | [], _, _, hi, _ => absurd hi (by simp)
  | y :: ys, 0, 0, _, _ => List.Perm.refl _
  | y :: ys, 0, n + 1, _, hj =>
    get_cons_set_perm ys n y (Nat.lt_of_succ_lt_succ hj)
  | y :: ys, m + 1, 0, hi, _ =>
    get_cons_set_perm ys m y (Nat.lt_of_succ_lt_succ hi)
  | y :: ys, m + 1, n + 1, hi, hj =>
    (set_set_perm ys m n (Nat.lt_of_succ_lt_succ hi) (Nat.lt_of_succ_lt_succ hj)).cons y

/-- One Fisher-Yates swap step permutes the list. -/
theorem swapL_perm {α : Type} (l : List α) (i j : ℕ) : List.Perm (swapL l i j) l := by
  unfold swapL
  split
  case _ a b ha hb =>
    obtain ⟨hi, ha'⟩ := List.getElem?_eq_some_iff.mp ha
    obtain ⟨hj, hb'⟩ := List.getElem?_eq_some_iff.mp hb
    have ha2 : l.get ⟨i, hi⟩ = a := ha'
    have hb2 : l.get ⟨j, hj⟩ = b := hb'
    rw [← ha2, ← hb2]
    exact set_set_perm l i j hi hj
  case _ => exact List.Perm.refl l

/-- The Fisher-Yates loop permutes the list. -/
theorem fyAux_perm {α : Type} (choice : ℕ → ℕ) :
    ∀ (n : ℕ) (l : List α), List.Perm (fyAux choice l n) l
  | 0, l => List.Perm.refl l
  | i + 1, l =>
    (fyAux_perm choice i (swapL l (i + 1) (choice (i + 1)))).trans
      (swapL_perm l (i + 1) (choice (i + 1)))

/-- The full Fisher-Yates shuffle permutes the list. -/
theorem fyShuffle_perm {α : Type} (choice : ℕ → ℕ) (l : List α) :
    List.Perm (fyShuffle choice l) l :=
  fyAux_perm choice (l.length - 1) l

/-- A swap step commutes with mapping a function over the list. -/
theorem swapL_map {α β : Type} (f : α → β) (l : List α) (i j : ℕ) :
    swapL (l.map f) i j = (swapL l i j).map f := by
  unfold swapL
  simp only [List.getElem?_map]
  cases ha : l[i]? <;> cases hb : l[j]? <;>
    simp [List.map_set]

/-- The Fisher-Yates loop commutes with mapping. -/
theorem fyAux_map {α β : Type} (f : α → β) (choice : ℕ → ℕ) :
    ∀ (n : ℕ) (l : List α), fyAux choice (l.map f) n = (fyAux choice l n).map f
  | 0, _ => rfl
  | i + 1, l => by
    rw [fyAux, fyAux, swapL_map]
    exact fyAux_map f choice i (swapL l (i + 1) (choice (i + 1)))

/-- The full shuffle commutes with mapping. -/
theorem fyShuffle_map {α β : Type} (f : α → β) (choice : ℕ → ℕ) (l : List α) :
    fyShuffle choice (l.map f) = (fyShuffle choice l).map f := by
  rw [fyShuffle, fyShuffle, List.length_map]
  exact fyAux_map f choice (l.length - 1) l

/-- C6: random selection returns the input unchanged when it has at
most `k` elements, and otherwise exactly `k` elements forming a
length-`k` prefix of a permutation of the input, for both the sample
points and the final spots; relabeling every spot's rating commutes
with the selection, so the rating has no influence on which positions
are selected. -/
theorem random_selection_spec :
    ∀ (choice : ℕ → ℕ) (k : ℕ),
      (∀ l : List Point, (∀ i, choice i ≤ i) →
        (l.length ≤ k → selectRandomMidPoints choice l k = l) ∧
        (k < l.length →
          (selectRandomMidPoints choice l k).length = k ∧
          ∃ p : List Point, List.Perm p l ∧ selectRandomMidPoints choice l k = p.take k)) ∧
      (∀ l : List Spot, (∀ i, choice i ≤ i) →
        (l.length ≤ k → selectRandomSpotsWithoutRating choice l k = l) ∧
        (k < l.length →
          (selectRandomSpotsWithoutRating choice l k).length = k ∧
          ∃ p : List Spot, List.Perm p l ∧
            selectRandomSpotsWithoutRating choice l k = p.take k)) ∧
      (∀ (l : List Spot) (st : Option ℕ),
        selectRandomSpotsWithoutRating choice (l.map (fun s => { s with stars := st })) k =
          (selectRandomSpotsWithoutRating choice l k).map (fun s => { s with stars := st })) := by
  intro choice k
  have key : ∀ (β : Type) (l : List β), (l.length ≤ k →
        (if l.length ≤ k then l else (fyShuffle choice l).take k) = l) ∧
      (k < l.length →
        (if l.length ≤ k then l else (fyShuffle choice l).take k).length = k ∧
        ∃ p : List β, List.Perm p l ∧
          (if l.length ≤ k then l else (fyShuffle choice l).take k) = p.take k) := by
    intro β l
    constructor
    · intro hle
      rw [if_pos hle]
    · intro hlt
      rw [if_neg (not_le.mpr hlt)]
      refine ⟨?_, fyShuffle choice l, fyShuffle_perm choice l, rfl⟩
      rw [List.length_take, (fyShuffle_perm choice l).length_eq]
      omega
  refine ⟨fun l _ => key Point l, fun l _ => key Spot l, ?_⟩
  intro l st
  simp only [selectRandomSpotsWithoutRating, List.length_map]
  by_cases hc : l.length ≤ k
  · rw [if_pos hc, if_pos hc]
  · rw [if_neg hc, if_neg hc, fyShuffle_map, List.map_take]

/-- Witness for C6: a single point is returned unchanged when picking
3, and from 4 spots exactly 3 are selected. -/
theorem random_selection_spec_witness :
    selectRandomMidPoints (fun _ => 0) [⟨0, 0⟩] 3 = [⟨0, 0⟩] ∧
    (selectRandomSpotsWithoutRating (fun _ => 0) wC6List 3).length = 3 :=
  ⟨(((random_selection_spec (fun _ => 0) 3).1 [⟨0, 0⟩] (fun i => Nat.zero_le i)).1
      (by simp)),
   (((random_selection_spec (fun _ => 0) 3).2.1 wC6List (fun i => Nat.zero_le i)).2
      (by simp [wC6List])).1⟩

/-- The JS `findIndex` result compares equal to a natural index iff
`findIdx?` returns exactly that index. -/
theorem jsFindIndex_beq_iff (l : List Spot) (p : Spot → Bool) (i : ℕ) :
    (jsFindIndex p l == (i : ℤ)) = true ↔ l.findIdx? p = some i := by
  simp only [jsFindIndex]
  cases h : l.findIdx? p with
  | none =>
    simp only [beq_iff_eq]
    constructor
    · intro hc
      omega
    · intro hc
      simp at hc
  | some j =>
    simp only [beq_iff_eq, Option.some.injEq, Int.natCast_inj]

/-- `find?` returns the element at the index found by the minimal-index
characterization. -/
theorem find?_eq_get_of_first {α : Type} (l : List α) (p : α → Bool) (i : ℕ)
    (hi : i < l.length) (hp : p (l.get ⟨i, hi⟩) = true)
    (hmin : ∀ j (hj : j < i), p (l.get ⟨j, lt_trans hj hi⟩) = false) :
    l.find? p = some (l.get ⟨i, hi⟩) := by
  induction l generalizing i with
  | nil => simp at hi
  | cons x t ih =>
    cases i with
    | zero =>
      exact List.find?_cons_of_pos t hp
    | succ n =>
      have hx : p x = false := hmin 0 (Nat.succ_pos n)
      rw [List.find?_cons_of_neg t (by simp [hx])]
      exact ih n (Nat.lt_of_succ_lt_succ hi) hp
        (fun j hj => hmin (j + 1) (Nat.succ_lt_succ hj))

/-- Membership characterization of the identifier dedup: the kept
elements are exactly those sitting at the first index carrying their
identifier. -/
theorem mem_dedupSpots_iff (l : List Spot) (s : Spot) :
    s ∈ dedupSpots l ↔ ∃ i, ∃ hi : i < l.length, l.get ⟨i, hi⟩ = s ∧
      l.findIdx? (fun t => t.id == s.id) = some i := by
  simp only [dedupSpots, List.mem_map, List.mem_filter]
  constructor
  · rintro ⟨⟨i, a⟩, ⟨henum, hq⟩, rfl⟩
    have hget := List.mem_enum_iff_get?.mp henum
    obtain ⟨hi, hgeti⟩ := List.get?_eq_some.mp hget
    exact ⟨i, hi, hgeti, (jsFindIndex_beq_iff l _ i).mp hq⟩
  · rintro ⟨i, hi, hget, hfind⟩
    refine ⟨(i, s), ⟨List.mem_enum_iff_get?.mpr ?_, ?_⟩, rfl⟩
    · exact List.get?_eq_some.mpr ⟨hi, hget⟩
    · exact (jsFindIndex_beq_iff l _ i).mpr hfind

/-- The dedup output is a sublist of its input. -/
theorem dedupSpots_sublist (l : List Spot) : (dedupSpots l).Sublist l := by
  have h1 := (List.filter_sublist
    (p := fun p => jsFindIndex (fun s => s.id == p.2.id) l == (p.1 : ℤ)) l.enum).map Prod.snd
  have h3 : l.enum.map Prod.snd = l := List.enumFrom_map_snd 0 l
  rw [h3] at h1
  exact h1

/-- After dedup all identifiers are pairwise distinct. -/
theorem dedupSpots_pairwise (l : List Spot) :
    (dedupSpots l).Pairwise (fun a b => a.id ≠ b.id) := by
  have hfst : l.enum.Pairwise (fun a b => a.1 ≠ b.1) := by
    have h := List.nodup_enum_map_fst l
    rwa [List.Nodup, List.pairwise_map] at h
  have hfil : (l.enum.filter
      (fun p => jsFindIndex (fun s => s.id == p.2.id) l == (p.1 : ℤ))).Pairwise
      (fun a b => a.1 ≠ b.1) :=
    hfst.sublist (List.filter_sublist _)
  rw [dedupSpots, List.pairwise_map]
  refine List.Pairwise.imp_of_mem ?_ hfil
  intro a b ha hb hne heq
  have hqa := (jsFindIndex_beq_iff l _ a.1).mp (List.mem_filter.mp ha).2
  have hqb := (jsFindIndex_beq_iff l _ b.1).mp (List.mem_filter.mp hb).2
  rw [heq] at hqa
  exact hne (Option.some.inj (hqa.symm.trans hqb))

/-- A list with pairwise-distinct identifiers holds at most one element
with any given identifier. -/
theorem countP_id_le_one (l : List Spot) (idv : String)
    (h : l.Pairwise (fun a b => a.id ≠ b.id)) :
    l.countP (fun s => s.id == idv) ≤ 1 := by
  induction l with
  | nil => simp
  | cons a t ih =>
    have hpw := List.pairwise_cons.mp h
    by_cases ha : a.id = idv
    · have hz : t.countP (fun s => s.id == idv) = 0 := by
        rw [List.countP_eq_zero]
        intro b hb
        simp only [beq_iff_eq]
        exact fun hbid => (hpw.1 b hb) (ha.trans hbid.symm)
      rw [List.countP_cons, hz]
      simp [ha]
    · rw [List.countP_cons]
      have : ¬ ((fun s => s.id == idv) a = true) := by simp [ha]
      simp only [this, if_false]
      simpa using ih hpw.2

/-- C5: identifier dedup keeps exactly the first occurrence of every
identifier: the output is an in-order sublist of the input, each
identifier present in the input occurs exactly once in the output, and
every kept element is the first input element with its identifier. -/
theorem dedup_keeps_first_occurrence (l : List Spot) :
    (dedupSpots l).Sublist l ∧
    (∀ idv : String, (∃ s ∈ l, s.id = idv) →
      (dedupSpots l).countP (fun s => s.id == idv) = 1) ∧
    (∀ s ∈ dedupSpots l, l.find? (fun t => t.id == s.id) = some s) := by
  refine ⟨dedupSpots_sublist l, ?_, ?_⟩
  · intro idv hex
    have hle := countP_id_le_one (dedupSpots l) idv (dedupSpots_pairwise l)
    have hge : 0 < (dedupSpots l).countP (fun s => s.id == idv) := by
      rw [List.countP_pos_iff]
      obtain ⟨s0, hs0mem, hs0id⟩ := hex
      have hfi := List.findIdx?_eq_some_of_exists
        (p := fun t => t.id == idv) ⟨s0, hs0mem, by simp [hs0id]⟩
      obtain ⟨hi, hp, hmin⟩ := List.findIdx?_eq_some_iff_getElem.mp hfi
      have hid : l[l.findIdx (fun t => t.id == idv)].id = idv := by simpa using hp
      refine ⟨l.get ⟨l.findIdx (fun t => t.id == idv), hi⟩, ?_, by simpa using hid⟩
      rw [mem_dedupSpots_iff]
      refine ⟨l.findIdx (fun t => t.id == idv), hi, rfl, ?_⟩
      have hgid : (l.get ⟨l.findIdx (fun t => t.id == idv), hi⟩).id = idv := by
        simpa using hid
      rw [hgid]
      exact hfi
    omega
  · intro s hs
    obtain ⟨i, hi, hget, hfind⟩ := (mem_dedupSpots_iff l s).mp hs
    obtain ⟨hi2, hp, hmin⟩ := List.findIdx?_eq_some_iff_getElem.mp hfind
    have hres := find?_eq_get_of_first l (fun t => t.id == s.id) i hi
      (by simpa using hp)
      (fun j hj => by simpa using hmin j hj)
    rw [hget] at hres
    exact hres

/-- The dedup of the witness list is nonempty. -/
theorem wDupList_dedup_ne_nil : dedupSpots wDupList ≠ [] := by
  intro h
  have hlen : (dedupSpots wDupList).length = 2 := rfl
  rw [h] at hlen
  simp at hlen

/-- Witness for C5: the shared identifier occurs exactly once after
dedup, and a kept element is the first with its identifier. -/
theorem dedup_keeps_first_occurrence_witness :
    (dedupSpots wDupList).countP (fun s => s.id == "node_1") = 1 ∧
    wDupList.find?
        (fun t => t.id == ((dedupSpots wDupList).head wDupList_dedup_ne_nil).id) =
      some ((dedupSpots wDupList).head wDupList_dedup_ne_nil) :=
  ⟨(dedup_keeps_first_occurrence wDupList).2.1 "node_1"
      ⟨{ id := "node_1", name := "A", lat := 0, lng := 0, type := "cafe", category := .cafe },
        by simp [wDupList], rfl⟩,
   (dedup_keeps_first_occurrence wDupList).2.2 _ (List.head_mem wDupList_dedup_ne_nil)⟩

/-- C10: the derived category is never `all`; tags matching no
recognized rule default to `restaurant`; hence every spot produced
from API results has a category other than `all`. -/
theorem category_never_all :
    (∀ tags : Tags, determineCategory tags ≠ Category.all) ∧
    (∀ tags : Tags, ¬ matchesCategoryRule tags → determineCategory tags = Category.restaurant) ∧
    (∀ (elements : List OverpassElement) (s : Spot),
      s ∈ convertToSpots elements → s.category ≠ Category.all) := by
  have h1 : ∀ tags : Tags, determineCategory tags ≠ Category.all := by
    intro tags
    simp only [determineCategory]
    split_ifs <;> simp
  refine ⟨h1, ?_, ?_⟩
  · intro tags hnm
    simp only [matchesCategoryRule, not_or] at hnm
    obtain ⟨m1, m2, m3, m4, m5, m6, m7⟩ := hnm
    simp only [determineCategory]
    rw [if_neg (show ¬(tags.amenity = some "restaurant" ∨ tags.amenity = some "fast_food")
        from not_or.mpr ⟨m1, m2⟩),
      if_neg m3,
      if_neg (show ¬(tags.tourism = some "attraction" ∨ tags.tourism = some "museum")
        from not_or.mpr ⟨m4, m5⟩),
      if_neg m6, if_neg m7]
  · intro elements s hs
    simp only [convertToSpots, List.mem_map] at hs
    obtain ⟨element, _, rfl⟩ := hs
    exact h1 element.tags

/-- The single named element survives the conversion. -/
theorem wElem_spots_ne_nil : convertToSpots [wElem] ≠ [] := by
  intro hnil
  have hlen : (convertToSpots [wElem]).length = 1 := rfl
  rw [hnil] at hlen
  simp at hlen

/-- Witness for C10: ruleless tags default to `restaurant`, and a
concrete converted spot has a category other than `all`. -/
theorem category_never_all_witness :
    determineCategory {} = Category.restaurant ∧
    ((convertToSpots [wElem]).head wElem_spots_ne_nil).category ≠ Category.all :=
  ⟨category_never_all.2.1 {} (by simp [matchesCategoryRule, jsTruthy]),
   category_never_all.2.2 [wElem] _ (List.head_mem wElem_spots_ne_nil)⟩

end Gacha
